import Mathlib

/-!
Verification development for the go-uber client library.

The repository's core is a reflection-driven request encoder
(`Client.generateRequestURLHelper` / `Client.generateRequestURL` in uber.go)
and the OAuth authorization steps built on it (`Client.OAuth`,
`Client.AutOAuth`, `Client.SetAccessToken` in auth.go).  This file gives a
shallow embedding of those functions and proves the specified properties.

Modelling conventions:
* A Go request struct, as seen through `reflect`, becomes a `ReqDesc`: the
  ordered list of its fields, each carrying the Go field name, the first
  component of the `query` tag, the `required` flag (second tag component),
  and the field's value (string, int, float64, or an embedded struct).
* `url.Values` becomes an ordered association list from keys to the list of
  added values; `url.Values.Add` appends.  Go map iteration order is
  unspecified; where the code ranges over a `url.Values` map the model uses
  first-insertion order (one of the admitted orders — and irrelevant to the
  final query string, because `url.Values.Encode` sorts its keys).
* float64 values are modelled by their decimal rendering `m * 10^(-e)`;
  `fmt.Sprintf("%v", x)` prints the shortest decimal form of a float64,
  which the model reproduces in positional notation (the repository only
  ever formats coordinates and the like, far inside the non-exponent range).
* HTTP and JSON are modelled at the interface the code consumes: the result
  of `httpClient.PostForm` is a transport error or a status code plus a
  body, and a body is read through the two decode results `SetAccessToken`
  can ask of it.
* Errors become the inductive `GoErr`; a Go panic (nil-pointer dereference)
  is a distinct `ExchangeResult.panics` outcome, never a returned error.
-/

namespace GoUber

/-! ## Decimal formatting (Go `fmt "%v"` on int64 / float64) -/

/-- Decimal digits of a natural number, most significant first.  The fuel is
only there to make the recursion structural; `n + 1` digits always suffice. -/
def natStrAux (fuel n : Nat) : List Char :=
  match fuel with
  | 0 => []
  | fuel + 1 =>
    if n < 10 then [Char.ofNat (48 + n)]
    else natStrAux fuel (n / 10) ++ [Char.ofNat (48 + n % 10)]

/-- Base-10 rendering of a natural number, as Go prints it. -/
def natStr (n : Nat) : String := String.mk (natStrAux (n + 1) n)

/-- Model of Go's base-10 rendering of an integer (`fmt "%v"` on an int64). -/
def intStr (i : Int) : String :=
  if i < 0 then "-" ++ natStr (-i).toNat else natStr i.toNat

/-- Decimal model of a Go float64: the value `m * 10^(-e)`.  `fmt "%v"`
prints the shortest decimal that round-trips; the model stores that decimal
directly as a scaled integer. -/
structure GoFloat where
  m : Int
  e : Nat
deriving DecidableEq

/-- Drop trailing fractional zeros, so that the rendering is the shortest
decimal form (Go never prints `0.50` for the value 0.5). -/
def floatNorm : Int → Nat → Int × Nat
  | m, 0 => (m, 0)
  | m, e + 1 => if m % 10 = 0 then floatNorm (m / 10) e else (m, e + 1)

/-- Model of `fmt.Sprintf("%v", x)` for a float64, in positional notation:
an integer renders with no fractional part (so the float 0.0 prints "0"),
otherwise the digits are split by a decimal point, zero-padded on the left
as needed. -/
def floatStr (x : GoFloat) : String :=
  match floatNorm x.m x.e with
  | (m, 0) => intStr m
  | (m, e + 1) =>
    let ds0 := (natStr m.natAbs).toList
    let ds := if ds0.length < e + 2 then List.replicate (e + 2 - ds0.length) '0' ++ ds0 else ds0
    (if m < 0 then "-" else "") ++ String.mk (ds.take (ds.length - (e + 1)))
      ++ "." ++ String.mk (ds.drop (ds.length - (e + 1)))

/-! ## `url.Values` -/

/-- `url.Values` as an ordered association list: each key maps to the values
added under it, keys listed in first-insertion order. -/
abbrev Values := List (String × List String)

/-- Model of `url.Values.Add`: append the value under the key, creating the
key at the end on first use. -/
def valuesAdd : Values → String → String → Values
  | [], k, v => [(k, [v])]
  | (k2, vs) :: rest, k, v =>
    if k2 = k then (k2, vs ++ [v]) :: rest else (k2, vs) :: valuesAdd rest k v

/-- A byte Go's `url.QueryEscape` keeps verbatim: ALPHA, DIGIT, `-`, `_`,
`.`, `~`. -/
def unreservedChar (ch : Char) : Bool :=
  decide (('A' ≤ ch ∧ ch ≤ 'Z') ∨ ('a' ≤ ch ∧ ch ≤ 'z') ∨ ('0' ≤ ch ∧ ch ≤ '9')
    ∨ ch = '-' ∨ ch = '_' ∨ ch = '.' ∨ ch = '~')

/-- Upper-case hexadecimal digit, as `url.QueryEscape` emits. -/
def hexDigitChar (n : Nat) : Char :=
  if n < 10 then Char.ofNat (48 + n) else Char.ofNat (55 + n)

/-- Escape one character: unreserved bytes stay, a space becomes `+`,
anything else becomes `%XX`.  (The library only sends ASCII, where a
character is one byte.) -/
def escapeChar (ch : Char) : String :=
  if unreservedChar ch then String.mk [ch]
  else if ch = ' ' then "+"
  else String.mk ['%', hexDigitChar (ch.toNat / 16), hexDigitChar (ch.toNat % 16)]

/-- Model of Go's `url.QueryEscape` on the ASCII strings this library sends. -/
def queryEscape (s : String) : String := String.join (s.toList.map escapeChar)

/-- Lexicographic order on character lists — the byte order `sort.Strings`
uses inside `url.Values.Encode` (identical for ASCII). -/
def charListLt : List Char → List Char → Bool
  | [], [] => false
  | [], _ :: _ => true
  | _ :: _, [] => false
  | a :: as, b :: bs => if a = b then charListLt as bs else decide (a < b)

/-- Strict string order used when `url.Values.Encode` sorts its keys. -/
def strLtB (a b : String) : Bool := charListLt a.toList b.toList

/-- Insert an entry into a key-sorted `Values` list. -/
def insertPair (p : String × List String) : Values → Values
  | [] => [p]
  | q :: rest => if strLtB q.1 p.1 then q :: insertPair p rest else p :: q :: rest

/-- The key-sorting step of `url.Values.Encode` (`sort.Strings(keys)`). -/
def sortValues (vs : Values) : Values := vs.foldr insertPair []

/-- Model of `url.Values.Encode`: sort the keys, then emit
`escape(k)=escape(v)` for every value under every key, joined by `&`. -/
def valuesEncode (vs : Values) : String :=
  String.intercalate "&"
    (((sortValues vs).map (fun kv => kv.2.map (fun v => queryEscape kv.1 ++ "=" ++ queryEscape v))).flatten)

/-- The encoding order the specification asserts instead: parameters emitted
in struct-declaration (insertion) order, without the sort.  Defined only to
be compared against the source-faithful `valuesEncode`. -/
def declarationOrderEncode (vs : Values) : String :=
  String.intercalate "&"
    ((vs.map (fun kv => kv.2.map (fun v => queryEscape kv.1 ++ "=" ++ queryEscape v))).flatten)

/-! ## Errors -/

/-- The `authError` struct of auth.go: the JSON shape `{"error": ...}` the
authorization server returns on a rejected exchange. -/
structure AuthError where
  Err : String
deriving DecidableEq

/-- The error values the modelled code can return.
`requiredField fn` models `fmt.Errorf("uber: %s is a required field", fn)`;
`transport` an error from the `http.Client`; `decode` an error from
`json.Decoder.Decode`; `authRejected` the `authError` value returned after a
failed token exchange. -/
inductive GoErr where
  | requiredField (fieldName : String)
  | transport (msg : String)
  | decode (msg : String)
  | authRejected (e : AuthError)
deriving DecidableEq

/-! ## Request descriptions and the encoder -/

/-- A request struct as `generateRequestURLHelper` sees it through
reflection: the ordered field list, each field carrying the Go field name,
the query-key name (`queryTag[0]`; `"-"` is the skip marker, `""` means no
tag), the `required` flag (`queryTag[1] == "required"`), and the value.
The four constructors are the four `reflect.Kind`s occurring in this
repository's request structs; the encoder's `default` branch is unreachable
on this domain. -/
inductive ReqDesc where
  | nil : ReqDesc
  | strF (fieldName name : String) (required : Bool) (s : String) (rest : ReqDesc)
  | intF (fieldName name : String) (required : Bool) (n : Int) (rest : ReqDesc)
  | floatF (fieldName name : String) (required : Bool) (x : GoFloat) (rest : ReqDesc)
  | structF (fieldName name : String) (required : Bool) (d : ReqDesc) (rest : ReqDesc)
deriving DecidableEq

/-- Model of the body of `Client.generateRequestURLHelper` (uber.go:400-448),
with `payload` the `url.Values` accumulator.  Per field, in declaration
order: a `-` name is skipped; a string that is required and empty fails with
the field's Go name; an embedded struct is encoded with a fresh accumulator,
and if its result is empty the field is skipped, otherwise the first value
of each of its keys is merged into the parent.  After the kind switch, Go
appends `queryTag[0] -> fmt "%v" v` when `v != ""` and the name is nonempty;
for int/float values the interface comparison `v != ""` is always true, and
in the struct branch `v` is still the nil interface, which prints "<nil>". -/
def encodeRun (payload : Values) : ReqDesc → Except GoErr Values
  | .nil => .ok payload
  | .strF fieldName name required s rest =>
    if name = "-" then encodeRun payload rest
    else if required ∧ s = "" then .error (.requiredField fieldName)
    else encodeRun (if s = "" ∨ name = "" then payload else valuesAdd payload name s) rest
  | .intF _fieldName name _required n rest =>
    if name = "-" then encodeRun payload rest
    else encodeRun (if name = "" then payload else valuesAdd payload name (intStr n)) rest
  | .floatF _fieldName name _required x rest =>
    if name = "-" then encodeRun payload rest
    else encodeRun (if name = "" then payload else valuesAdd payload name (floatStr x)) rest
  | .structF _fieldName name _required d rest =>
    if name = "-" then encodeRun payload rest
    else
      match encodeRun [] d with
      | .error e => .error e
      | .ok sub =>
        if sub = [] then encodeRun payload rest
        else
          encodeRun
            ((if name = "" then id else fun p => valuesAdd p name "<nil>")
              (sub.foldl (fun acc kv => valuesAdd acc kv.1 (kv.2.headD "")) payload)) rest

/-- Model of `Client.generateRequestURLHelper` (uber.go:400-448): run the
field walk with an empty `url.Values`. -/
def generateRequestURLHelper (d : ReqDesc) : Except GoErr Values := encodeRun [] d

/-- Model of `Client.generateRequestURL` (uber.go:378-396): a nil request
description short-circuits to an empty query; otherwise the helper's payload
is encoded; a nonempty query string is prefixed with `?`. -/
def generateRequestURL (base endpoint : String) (data : Option ReqDesc) :
    Except GoErr String :=
  match (match data with
         | none => Except.ok ""
         | some d => (generateRequestURLHelper d).map valuesEncode) with
  | .error e => .error e
  | .ok qp => .ok (base ++ "/" ++ endpoint ++ (if qp = "" then "" else "?" ++ qp))

/-! ## The repository's request structs as descriptions -/

/-- Constant `State` (part_005): the anti-tampering state token. -/
def State : String := "go-uber"

/-- Constant `AuthHost` (part_005). -/
def AuthHost : String := "https://login.uber.com/oauth"

/-- Constant `AccessCodeEndpoint` (part_005). -/
def AccessCodeEndpoint : String := "authorize"

/-- Constant `AccessTokenEndpoint` (part_005). -/
def AccessTokenEndpoint : String := "token"

/-- The `auth` struct (auth.go:45-52): credentials for the OAuth flow. -/
structure Auth where
  clientID : String
  clientSecret : String
  redirectURI : String
deriving DecidableEq

/-- The `auth` struct seen through reflection, in declaration order:
`clientID` tagged `query:"client_id,required"`, `clientSecret` tagged
`query:"-"` (never emitted), `redirectURI` tagged
`query:"redirect_uri,required"`. -/
def authDesc (a : Auth) : ReqDesc :=
  .strF "clientID" "client_id" true a.clientID
  (.strF "clientSecret" "-" false a.clientSecret
  (.strF "redirectURI" "redirect_uri" true a.redirectURI .nil))

/-- The `authReq` value built by `Client.OAuth` (auth.go:66-71) over the
`authReq` struct (requests.go:8-14): the embedded `auth` (untagged, so its
query name is empty), then `responseType = "code"` tagged
`query:"response_type,required"`, the space-joined `scope`, and the constant
`state`. -/
def authReqDesc (a : Auth) (scope : List String) : ReqDesc :=
  .structF "auth" "" false (authDesc a)
  (.strF "responseType" "response_type" true "code"
  (.strF "scope" "scope" false (String.intercalate " " scope)
  (.strF "state" "state" false State .nil)))

/-- The `accReq` value built by `Client.SetAccessToken` (auth.go:127-132)
over the `accReq` struct (requests.go:16-21): the embedded `auth`, then
`clientSecret` tagged `query:"client_secret,required"`,
`grantType = "authorization_code"` tagged `query:"grant_type,required"`, and
the authorization `code` tagged `query:"code,required"`. -/
def accReqDesc (a : Auth) (authorizationCode : String) : ReqDesc :=
  .structF "auth" "" false (authDesc a)
  (.strF "clientSecret" "client_secret" true a.clientSecret
  (.strF "grantType" "grant_type" true "authorization_code"
  (.strF "code" "code" true authorizationCode .nil)))

/-- The `timesReq` struct (requests.go:65-70) with its `query` tags. -/
def timesReqDesc (startLatitude startLongitude : GoFloat)
    (customerUuid productID : String) : ReqDesc :=
  .floatF "startLatitude" "start_latitude" true startLatitude
  (.floatF "startLongitude" "start_longitude" true startLongitude
  (.strF "customerUuid" "customer_uuid" false customerUuid
  (.strF "productID" "product_id" false productID .nil)))

/-! ## The client and the authorization state machine -/

/-- The `access` struct (auth.go:16-42): the decoded access grant. -/
structure Access where
  Token : String
  TokenType : String
  ExpiresIn : Int
  RefreshToken : String
  Scope : String
deriving DecidableEq

/-- The zero value of `access` — what `new(access)` yields, and hence what a
fresh client holds before any token exchange succeeds. -/
def zeroAccess : Access := ⟨"", "", 0, "", ""⟩

/-- The `Client` struct (uber.go:264-286), restricted to the fields the
modelled code reads: the server token, the current access grant (a pointer
to the zero struct on a fresh client), and the `auth` session pointer,
`none` while nil. -/
structure Client where
  serverToken : String
  access : Access
  auth : Option Auth
deriving DecidableEq

/-- Model of `NewClient` (uber.go:292-298): `access` is `new(access)` (the
zero value); the `auth` pointer is left nil. -/
def NewClient (serverToken : String) : Client := ⟨serverToken, zeroAccess, none⟩

/-- Model of `Client.OAuth` (auth.go:58-72): store the credentials in a
fresh session on the client, then build the authorize URL from the `authReq`
description.  The Go method mutates its receiver, so the model returns the
updated client along with the result. -/
def OAuth (c : Client) (clientID clientSecret redirect : String)
    (scope : List String) : Client × Except GoErr String :=
  let a : Auth := ⟨clientID, clientSecret, redirect⟩
  ({c with auth := some a},
    generateRequestURL AuthHost AccessCodeEndpoint (some (authReqDesc a scope)))

/-- The decodes `SetAccessToken` can ask of a response body: reading it as
an `access` grant, and reading it as an `authError`. -/
structure Body where
  decodeAccess : Except String Access
  decodeAuthError : Except String AuthError

/-- `DecidableEq` for `Except`, needed to decide concrete `Body` values. -/
instance exceptDecEq {ε α : Type} [DecidableEq ε] [DecidableEq α] :
    DecidableEq (Except ε α) := fun a b =>
  match a, b with
  | .error e, .error e2 =>
    if h : e = e2 then .isTrue (by rw [h]) else .isFalse (by simp [h])
  | .error _, .ok _ => .isFalse (by simp)
  | .ok _, .error _ => .isFalse (by simp)
  | .ok x, .ok y =>
    if h : x = y then .isTrue (by rw [h]) else .isFalse (by simp [h])

instance : DecidableEq Body := fun a b => by
  cases a; cases b
  exact decidable_of_iff _ (by simp [Body.mk.injEq]; exact Iff.rfl)

/-- The result of `httpClient.PostForm`: a transport error, or a response
with a status code and a body. -/
inductive TransportResult where
  | failure (msg : String)
  | response (statusCode : Nat) (body : Body)
deriving DecidableEq

/-- How a call to `SetAccessToken` ends: Go either panics (nil-pointer
dereference) or returns, leaving the client in some state with a
possibly-nil error. -/
inductive ExchangeResult where
  | panics (msg : String)
  | done (c : Client) (err : Option GoErr)
deriving DecidableEq

/-- The tail of `SetAccessToken` (auth.go:159-161):
`authErr := new(authError); decoder.Decode(authErr); return authErr` — the
decode error is discarded, so on a decode failure `authErr` keeps its zero
value. -/
def authErrDecodeOrZero (body : Body) : AuthError :=
  match body.decodeAuthError with
  | .ok ae => ae
  | .error _ => ⟨""⟩

/-- Model of `Client.SetAccessToken` (auth.go:126-162).  Building the
`accReq` literal dereferences `*c.auth`, which panics while the session
pointer is nil.  Then the form payload is built by the encoder (errors
propagate), the POST is issued (`tr` stands for its result), and on a 200
the body is decoded as a grant: a decode error propagates, a "Bearer" grant
is stored wholesale.  Every other path falls through to decoding the body
as an `authError`, whose decode error is discarded. -/
def SetAccessToken (c : Client) (authorizationCode : String)
    (tr : TransportResult) : ExchangeResult :=
  match c.auth with
  | none => .panics "invalid memory address or nil pointer dereference"
  | some a =>
    match generateRequestURLHelper (accReqDesc a authorizationCode) with
    | .error e => .done c (some e)
    | .ok _payload =>
      match tr with
      | .failure msg => .done c (some (.transport msg))
      | .response statusCode body =>
        if statusCode = 200 then
          match body.decodeAccess with
          | .error msg => .done c (some (.decode msg))
          | .ok acc =>
            if acc.TokenType = "Bearer" then .done {c with access := acc} none
            else .done c (some (.authRejected (authErrDecodeOrZero body)))
        else .done c (some (.authRejected (authErrDecodeOrZero body)))

/-- How `Client.AutOAuth` (auth.go:77-122) leaves its first, sequential
step.  Only this prefix is modelled: the call to `OAuth` and the handling
of its error; the rest of the function (browser launch, local HTTP
listener) is concurrent I/O outside the embedding. -/
inductive AutOAuthStart where
  | returned (c : Client) (err : Option GoErr)
  | proceeds (c : Client) (urlString : String)
deriving DecidableEq

/-- Model of the first step of `Client.AutOAuth` (auth.go:80-83): the code
reads `if err != nil { return nil }`, so an `OAuth` failure makes AutOAuth
return a nil error to its caller, dropping the underlying error. -/
def AutOAuthFirstStep (c : Client) (clientID clientSecret redirect : String)
    (scope : List String) : AutOAuthStart :=
  match OAuth c clientID clientSecret redirect scope with
  | (c2, .error _) => .returned c2 none
  | (c2, .ok urlString) => .proceeds c2 urlString

/-! ## Predicates used to state the claims -/

/-- Go field names (the names the encoder's error message uses) of every
reachable required field whose formatted value is the empty string, in
traversal order.  A field whose query name is the skip marker `-` is never
reached; the formatting is the same `fmt "%v"` the encoder applies. -/
def emptyReqFieldNames : ReqDesc → List String
  | .nil => []
  | .strF fieldName name required s rest =>
    (if name ≠ "-" ∧ required ∧ s = "" then [fieldName] else []) ++ emptyReqFieldNames rest
  | .intF fieldName name required n rest =>
    (if name ≠ "-" ∧ required ∧ intStr n = "" then [fieldName] else []) ++ emptyReqFieldNames rest
  | .floatF fieldName name required x rest =>
    (if name ≠ "-" ∧ required ∧ floatStr x = "" then [fieldName] else []) ++ emptyReqFieldNames rest
  | .structF _fieldName name _required d rest =>
    (if name = "-" then [] else emptyReqFieldNames d) ++ emptyReqFieldNames rest

/-- The literal premise of the required-field claim: some `required` field
of the description — at any depth, skip-marked or not — has an empty
formatted value. -/
def hasRequiredEmptyFormatted : ReqDesc → Bool
  | .nil => false
  | .strF _ _ required s rest =>
    (required && s == "") || hasRequiredEmptyFormatted rest
  | .intF _ _ required n rest =>
    (required && intStr n == "") || hasRequiredEmptyFormatted rest
  | .floatF _ _ required x rest =>
    (required && floatStr x == "") || hasRequiredEmptyFormatted rest
  | .structF _ _ _ d rest =>
    hasRequiredEmptyFormatted d || hasRequiredEmptyFormatted rest

/-- Nondecreasing key order between `Values` entries, the order in which
`valuesEncode` emits them. -/
def keyLe (p q : String × List String) : Prop := strLtB q.1 p.1 = false

/-- The client state reached by the happy-path `OAuth` call with client id
"cid", secret "secret" and redirect "https://app/cb". -/
def authedClient : Client := ⟨"stoken", zeroAccess, some ⟨"cid", "secret", "https://app/cb"⟩⟩

/-- The access grant decoded in the happy-path exchange. -/
def happyGrant : Access := ⟨"tok", "Bearer", 2592000, "r", "profile"⟩

/-- A concrete `timesReq` payload whose declaration order differs from
alphabetical key order. -/
def timesSample : ReqDesc := timesReqDesc ⟨0, 0⟩ ⟨0, 0⟩ "u1" "p1"

/-! ## Helper lemmas -/

/-- A natural number never renders as the empty string. -/
theorem natStr_ne_empty (n : Nat) : natStr n ≠ "" := by
  simp only [natStr, natStrAux]
  split
  · intro h
    have h2 := congrArg String.data h
    simp at h2
  · intro h
    have h2 := congrArg String.data h
    simp at h2

/-- An integer never renders as the empty string. -/
theorem intStr_ne_empty (i : Int) : intStr i ≠ "" := by
  unfold intStr
  split
  · intro h
    have h2 := congrArg String.data h
    simp [natStr] at h2
  · exact natStr_ne_empty _

/-- A string with a dot appended in the middle is never empty. -/
theorem append_dot_ne_empty (a b : String) : a ++ "." ++ b ≠ "" := by
  intro h
  have h2 := congrArg String.data h
  rw [String.data_append, String.data_append,
    show ("." : String).data = ['.'] from rfl] at h2
  simp at h2

/-- A float64 never renders as the empty string: its formatted value always
contains at least one digit (or a decimal point). -/
theorem floatStr_ne_empty (x : GoFloat) : floatStr x ≠ "" := by
  unfold floatStr
  rcases h : floatNorm x.m x.e with ⟨m, e⟩
  cases e with
  | zero => exact intStr_ne_empty m
  | succ e => exact append_dot_ne_empty _ _

/-- Main encoder lemma: the walk of `encodeRun` succeeds exactly when no
reachable required field has an empty formatted value, and otherwise fails
naming the first such field (in declaration order), independently of the
accumulated payload. -/
theorem encodeRun_spec (d : ReqDesc) : ∀ payload : Values,
    (emptyReqFieldNames d = [] → ∃ vs, encodeRun payload d = .ok vs)
    ∧ (∀ fn tl, emptyReqFieldNames d = fn :: tl →
        encodeRun payload d = .error (.requiredField fn)) := by
  induction d with
  | nil =>
    intro payload
    exact ⟨fun _ => ⟨payload, rfl⟩, fun fn tl h => by simp [emptyReqFieldNames] at h⟩
  | strF fieldName name required s rest ih =>
    intro payload
    by_cases hskip : name = "-"
    · have hnames : emptyReqFieldNames (.strF fieldName name required s rest)
          = emptyReqFieldNames rest := by
        simp [emptyReqFieldNames, hskip]
      rw [hnames]
      constructor
      · intro h
        obtain ⟨vs, hvs⟩ := (ih payload).1 h
        exact ⟨vs, by simp [encodeRun, hskip, hvs]⟩
      · intro fn tl h
        have h2 := (ih payload).2 fn tl h
        simp [encodeRun, hskip, h2]
    · by_cases hreq : required = true ∧ s = ""
      · have hnames : emptyReqFieldNames (.strF fieldName name required s rest)
            = fieldName :: emptyReqFieldNames rest := by
          simp [emptyReqFieldNames, hskip, hreq.1, hreq.2]
        rw [hnames]
        constructor
        · intro h
          simp at h
        · intro fn tl h
          injection h with h1 h2
          subst h1
          simp [encodeRun, hskip, hreq.1, hreq.2]
      · have hnames : emptyReqFieldNames (.strF fieldName name required s rest)
            = emptyReqFieldNames rest := by
          simp only [emptyReqFieldNames]
          rw [if_neg (fun hc => hreq hc.2), List.nil_append]
        rw [hnames]
        have hstep : encodeRun payload (.strF fieldName name required s rest)
            = encodeRun (if s = "" ∨ name = "" then payload else valuesAdd payload name s)
                rest := by
          simp only [encodeRun]
          rw [if_neg hskip, if_neg (fun hc => hreq hc)]
        constructor
        · intro h
          obtain ⟨vs, hvs⟩ :=
            (ih (if s = "" ∨ name = "" then payload else valuesAdd payload name s)).1 h
          exact ⟨vs, by rw [hstep]; exact hvs⟩
        · intro fn tl h
          have h2 :=
            (ih (if s = "" ∨ name = "" then payload else valuesAdd payload name s)).2 fn tl h
          rw [hstep]
          exact h2
  | intF fieldName name required n rest ih =>
    intro payload
    have hnames : emptyReqFieldNames (.intF fieldName name required n rest)
        = emptyReqFieldNames rest := by
      simp [emptyReqFieldNames, intStr_ne_empty n]
    rw [hnames]
    by_cases hskip : name = "-"
    · constructor
      · intro h
        obtain ⟨vs, hvs⟩ := (ih payload).1 h
        exact ⟨vs, by simp [encodeRun, hskip, hvs]⟩
      · intro fn tl h
        have h2 := (ih payload).2 fn tl h
        simp [encodeRun, hskip, h2]
    · constructor
      · intro h
        obtain ⟨vs, hvs⟩ :=
          (ih (if name = "" then payload else valuesAdd payload name (intStr n))).1 h
        exact ⟨vs, by simp only [encodeRun]; rw [if_neg hskip]; exact hvs⟩
      · intro fn tl h
        have h2 :=
          (ih (if name = "" then payload else valuesAdd payload name (intStr n))).2 fn tl h
        simp only [encodeRun]
        rw [if_neg hskip]
        exact h2
  | floatF fieldName name required x rest ih =>
    intro payload
    have hnames : emptyReqFieldNames (.floatF fieldName name required x rest)
        = emptyReqFieldNames rest := by
      simp [emptyReqFieldNames, floatStr_ne_empty x]
    rw [hnames]
    by_cases hskip : name = "-"
    · constructor
      · intro h
        obtain ⟨vs, hvs⟩ := (ih payload).1 h
        exact ⟨vs, by simp [encodeRun, hskip, hvs]⟩
      · intro fn tl h
        have h2 := (ih payload).2 fn tl h
        simp [encodeRun, hskip, h2]
    · constructor
      · intro h
        obtain ⟨vs, hvs⟩ :=
          (ih (if name = "" then payload else valuesAdd payload name (floatStr x))).1 h
        exact ⟨vs, by simp only [encodeRun]; rw [if_neg hskip]; exact hvs⟩
      · intro fn tl h
        have h2 :=
          (ih (if name = "" then payload else valuesAdd payload name (floatStr x))).2 fn tl h
        simp only [encodeRun]
        rw [if_neg hskip]
        exact h2
  | structF fieldName name required d rest ihd ihrest =>
    intro payload
    by_cases hskip : name = "-"
    · have hnames : emptyReqFieldNames (.structF fieldName name required d rest)
          = emptyReqFieldNames rest := by
        simp [emptyReqFieldNames, hskip]
      rw [hnames]
      constructor
      · intro h
        obtain ⟨vs, hvs⟩ := (ihrest payload).1 h
        exact ⟨vs, by simp [encodeRun, hskip, hvs]⟩
      · intro fn tl h
        have h2 := (ihrest payload).2 fn tl h
        simp [encodeRun, hskip, h2]
    · have hnames : emptyReqFieldNames (.structF fieldName name required d rest)
          = emptyReqFieldNames d ++ emptyReqFieldNames rest := by
        simp [emptyReqFieldNames, hskip]
      rw [hnames]
      rcases hnd : emptyReqFieldNames d with _ | ⟨fn0, tl0⟩
      · obtain ⟨sub, hsub⟩ := (ihd []).1 hnd
        have hred : encodeRun payload (.structF fieldName name required d rest)
            = encodeRun (if hs : sub = [] then payload else
                ((if name = "" then id else fun p => valuesAdd p name "<nil>")
                  (sub.foldl (fun acc kv => valuesAdd acc kv.1 (kv.2.headD "")) payload)))
                rest := by
          by_cases hs : sub = [] <;>
            simp [encodeRun, hskip, hsub, hs]
        rw [List.nil_append]
        set pl2 : Values := if hs : sub = [] then payload else
          ((if name = "" then id else fun p => valuesAdd p name "<nil>")
            (sub.foldl (fun acc kv => valuesAdd acc kv.1 (kv.2.headD "")) payload))
        constructor
        · intro h
          obtain ⟨vs, hvs⟩ := (ihrest pl2).1 h
          exact ⟨vs, by rw [hred]; exact hvs⟩
        · intro fn tl h
          have h2 := (ihrest pl2).2 fn tl h
          rw [hred]
          exact h2
      · have herr := (ihd []).2 fn0 tl0 hnd
        constructor
        · intro h
          simp at h
        · intro fn tl h
          rw [List.cons_append] at h
          injection h with h1 h2
          subst h1
          simp [encodeRun, hskip, herr]

/-- Encoding the `accReq` description with nonempty credentials and code
succeeds, flattening the embedded `auth` fields (minus the skip-marked
nested client secret) into the parent's five keys. -/
theorem accReq_encode (cid sec red code : String)
    (h1 : cid ≠ "") (h2 : sec ≠ "") (h3 : red ≠ "") (h4 : code ≠ "") :
    generateRequestURLHelper (accReqDesc ⟨cid, sec, red⟩ code)
      = .ok [("client_id", [cid]), ("redirect_uri", [red]), ("client_secret", [sec]),
             ("grant_type", ["authorization_code"]), ("code", [code])] := by
  simp [generateRequestURLHelper, accReqDesc, authDesc, encodeRun, valuesAdd, h1, h2, h3, h4]

/-- Strict character-list order is asymmetric. -/
theorem charListLt_asymm : ∀ as bs, charListLt as bs = true → charListLt bs as = false := by
  intro as
  induction as with
  | nil =>
    intro bs h
    cases bs with
    | nil => simp [charListLt] at h
    | cons b bs => simp [charListLt]
  | cons a as ih =>
    intro bs h
    cases bs with
    | nil => simp [charListLt] at h
    | cons b bs =>
      simp only [charListLt] at h ⊢
      by_cases hab : a = b
      · subst hab
        rw [if_pos rfl] at h ⊢
        exact ih bs h
      · rw [if_neg hab] at h
        rw [if_neg (fun hc => hab hc.symm)]
        have hlt : a < b := of_decide_eq_true h
        simpa using lt_asymm hlt

/-- Character lists that are mutually not-less are equal. -/
theorem charListLt_conn : ∀ as bs, charListLt as bs = false → charListLt bs as = false →
    as = bs := by
  intro as
  induction as with
  | nil =>
    intro bs h1 _h2
    cases bs with
    | nil => rfl
    | cons b bs => simp [charListLt] at h1
  | cons a as ih =>
    intro bs h1 h2
    cases bs with
    | nil => simp [charListLt] at h2
    | cons b bs =>
      simp only [charListLt] at h1 h2
      by_cases hab : a = b
      · subst hab
        rw [if_pos rfl] at h1 h2
        rw [ih bs h1 h2]
      · rw [if_neg hab] at h1
        rw [if_neg (fun hc => hab hc.symm)] at h2
        have hle1 : ¬ a < b := by simpa using h1
        have hle2 : ¬ b < a := by simpa using h2
        exact absurd (le_antisymm (not_lt.mp hle2) (not_lt.mp hle1)) hab

/-- Strict character-list order is transitive. -/
theorem charListLt_trans : ∀ as bs cs, charListLt as bs = true → charListLt bs cs = true →
    charListLt as cs = true := by
  intro as
  induction as with
  | nil =>
    intro bs cs h1 h2
    cases bs with
    | nil => simp [charListLt] at h1
    | cons b bs =>
      cases cs with
      | nil => simp [charListLt] at h2
      | cons c cs => simp [charListLt]
  | cons a as ih =>
    intro bs cs h1 h2
    cases bs with
    | nil => simp [charListLt] at h1
    | cons b bs =>
      cases cs with
      | nil => simp [charListLt] at h2
      | cons c cs =>
        simp only [charListLt] at h1 h2 ⊢
        by_cases hab : a = b <;> by_cases hbc : b = c
        · subst hab; subst hbc
          rw [if_pos rfl] at h1 h2 ⊢
          exact ih bs cs h1 h2
        · subst hab
          rw [if_pos rfl] at h1
          rw [if_neg hbc] at h2
          rw [if_neg hbc]
          exact h2
        · subst hbc
          rw [if_neg hab] at h1
          rw [if_neg hab]
          exact h1
        · rw [if_neg hab] at h1
          rw [if_neg hbc] at h2
          have hlt1 : a < b := of_decide_eq_true h1
          have hlt2 : b < c := of_decide_eq_true h2
          have hlt : a < c := lt_trans hlt1 hlt2
          rw [if_neg (show ¬ a = c from fun hc => lt_irrefl c (hc ▸ hlt))]
          exact decide_eq_true hlt

/-- Nonstrict string order (the negation of `strLtB`) is transitive. -/
theorem strLtB_le_trans {a b c : String} (h1 : strLtB b a = false)
    (h2 : strLtB c b = false) : strLtB c a = false := by
  unfold strLtB at h1 h2 ⊢
  cases hca : charListLt c.toList a.toList
  · rfl
  · exfalso
    cases hbc : charListLt b.toList c.toList
    · rw [charListLt_conn _ _ hbc h2] at h1
      rw [h1] at hca
      exact Bool.false_ne_true hca
    · have := charListLt_trans _ _ _ hbc hca
      rw [h1] at this
      exact Bool.false_ne_true this

/-- Members of an insertion are the new entry or old members. -/
theorem insertPair_mem (p : String × List String) :
    ∀ l x, x ∈ insertPair p l → x = p ∨ x ∈ l := by
  intro l
  induction l with
  | nil =>
    intro x hx
    simp [insertPair] at hx
    exact Or.inl hx
  | cons q rest ih =>
    intro x hx
    simp only [insertPair] at hx
    by_cases hlt : strLtB q.1 p.1 = true
    · rw [if_pos hlt] at hx
      rcases List.mem_cons.mp hx with hq | hrest
      · exact Or.inr (hq ▸ List.mem_cons_self q rest)
      · rcases ih x hrest with hp | hr
        · exact Or.inl hp
        · exact Or.inr (List.mem_cons_of_mem q hr)
    · rw [if_neg hlt] at hx
      rcases List.mem_cons.mp hx with hp | hrest
      · exact Or.inl hp
      · exact Or.inr hrest

/-- Inserting into a key-sorted list keeps it key-sorted. -/
theorem insertPair_sorted (p : String × List String) :
    ∀ l, l.Pairwise keyLe → (insertPair p l).Pairwise keyLe := by
  intro l
  induction l with
  | nil =>
    intro _
    simp [insertPair]
  | cons q rest ih =>
    intro h
    rcases List.pairwise_cons.mp h with ⟨hq, hrest⟩
    simp only [insertPair]
    cases hlt : strLtB q.1 p.1
    · rw [if_neg Bool.false_ne_true]
      refine List.pairwise_cons.mpr ⟨?_, h⟩
      intro x hx
      rcases List.mem_cons.mp hx with hxq | hxr
      · subst hxq
        exact hlt
      · exact strLtB_le_trans hlt (hq x hxr)
    · rw [if_pos rfl]
      refine List.pairwise_cons.mpr ⟨?_, ih hrest⟩
      intro x hx
      rcases insertPair_mem p rest x hx with hxp | hxr
      · subst hxp
        exact charListLt_asymm _ _ hlt
      · exact hq x hxr

/-- The key-sorting step of `valuesEncode` yields a key-sorted list. -/
theorem sortValues_sorted : ∀ vs : Values, (sortValues vs).Pairwise keyLe := by
  intro vs
  induction vs with
  | nil => simp [sortValues]
  | cons v rest ih => exact insertPair_sorted v _ ih

/-! ## Claims -/

/-- C1 counterexample: a `required` string field whose query name is the
skip marker `-` and whose value is the empty string.  The claim's premise
holds — some required field's formatted value is empty — yet encoding
succeeds, because the encoder skips a `-`-named field before the required
check (exactly as the nested client secret of `auth` is skipped). -/
theorem c1_counterexample :
    hasRequiredEmptyFormatted (.strF "x" "-" true "" .nil) = true
    ∧ generateRequestURLHelper (.strF "x" "-" true "" .nil) = .ok [] :=
  ⟨by decide, by decide⟩

/-- C1 (amended): for every request description, if some reachable
(non-skip-marked) required field's formatted value is the empty string then
encoding fails with the required-field error naming the first such field in
declaration order, and if no reachable required field has an empty
formatted value then encoding succeeds. -/
theorem c1_required_field_invariant (d : ReqDesc) :
    (emptyReqFieldNames d ≠ [] →
      generateRequestURLHelper d
        = .error (.requiredField ((emptyReqFieldNames d).headD "")))
    ∧ (emptyReqFieldNames d = [] → ∃ vs, generateRequestURLHelper d = .ok vs) := by
  constructor
  · intro h
    cases hn : emptyReqFieldNames d with
    | nil => exact absurd hn h
    | cons fn tl =>
      have h2 := (encodeRun_spec d []).2 fn tl hn
      simp only [generateRequestURLHelper, hn, List.headD_cons]
      exact h2
  · intro h
    exact (encodeRun_spec d []).1 h

/-- C1 witness: the required-field invariant at two concrete single-field
descriptions (an empty and a nonempty required `product_id`). -/
theorem c1_witness :
    generateRequestURLHelper (.strF "productID" "product_id" true "" .nil)
      = .error (.requiredField "productID")
    ∧ ∃ vs, generateRequestURLHelper (.strF "productID" "product_id" true "p1" .nil)
      = .ok vs :=
  ⟨(c1_required_field_invariant (.strF "productID" "product_id" true "" .nil)).1 (by decide),
   (c1_required_field_invariant (.strF "productID" "product_id" true "p1" .nil)).2 (by decide)⟩

/-- C2 counterexample: the token-exchange description (`accReq` embedding
`auth`) encodes to FIVE keys, not seven: the nested `client_secret` carries
the skip marker `-`, so only `client_id` and `redirect_uri` flow out of the
nested description, joined by the outer `client_secret`, `grant_type` and
`code`. -/
theorem c2_counterexample :
    (generateRequestURLHelper (accReqDesc ⟨"cid", "secret", "https://app/cb"⟩
        "authcode123")).map (fun vs => vs.map Prod.fst)
      = .ok ["client_id", "redirect_uri", "client_secret", "grant_type", "code"]
    ∧ (["client_id", "redirect_uri", "client_secret", "grant_type", "code"] :
        List String).length ≠ 7 :=
  ⟨by decide, by decide⟩

/-- C2 (amended): encoding the token-exchange description flattens the
nested `auth` description's emitted pairs into the parent's output, taking
the first value seen per nested key; with all inputs nonempty the result is
the flat union of the five keys `client_id`, `redirect_uri` (from the
nested description — its skip-marked `client_secret` is never emitted),
`client_secret`, `grant_type` and `code`. -/
theorem c2_nested_flattening (cid sec red code : String)
    (h1 : cid ≠ "") (h2 : sec ≠ "") (h3 : red ≠ "") (h4 : code ≠ "") :
    generateRequestURLHelper (accReqDesc ⟨cid, sec, red⟩ code)
      = .ok [("client_id", [cid]), ("redirect_uri", [red]), ("client_secret", [sec]),
             ("grant_type", ["authorization_code"]), ("code", [code])] :=
  accReq_encode cid sec red code h1 h2 h3 h4

/-- C2 witness: the flattening at the concrete happy-path inputs. -/
theorem c2_witness :
    generateRequestURLHelper (accReqDesc ⟨"cid", "secret", "https://app/cb"⟩ "authcode123")
      = .ok [("client_id", ["cid"]), ("redirect_uri", ["https://app/cb"]),
             ("client_secret", ["secret"]), ("grant_type", ["authorization_code"]),
             ("code", ["authcode123"])] :=
  c2_nested_flattening "cid" "secret" "https://app/cb" "authcode123"
    (by decide) (by decide) (by decide) (by decide)

/-- C3: a required float field never fails the required check (the
empty-string check applies only to string-kind fields), and with value 0.0
and a real (non-skip, nonempty) query name it encodes as `name=0`. -/
theorem c3_zero_float_not_missing (fieldName name : String) (x : GoFloat) :
    (∃ vs, generateRequestURLHelper (.floatF fieldName name true x .nil) = .ok vs)
    ∧ (name ≠ "-" → name ≠ "" →
        generateRequestURLHelper (.floatF fieldName name true ⟨0, 0⟩ .nil)
          = .ok [(name, ["0"])]) := by
  constructor
  · by_cases hskip : name = "-"
    · exact ⟨[], by simp [generateRequestURLHelper, encodeRun, hskip]⟩
    · by_cases hempty : name = ""
      · exact ⟨[], by simp [generateRequestURLHelper, encodeRun, hskip, hempty]⟩
      · exact ⟨[(name, [floatStr x])],
          by simp [generateRequestURLHelper, encodeRun, hskip, hempty, valuesAdd]⟩
  · intro h1 h2
    have hz : floatStr ⟨0, 0⟩ = "0" := by decide
    simp [generateRequestURLHelper, encodeRun, h1, h2, valuesAdd, hz]

/-- C3 witness: the required `start_latitude` float at 0.0 encodes as
`start_latitude=0`. -/
theorem c3_witness :
    (∃ vs, generateRequestURLHelper
        (.floatF "startLatitude" "start_latitude" true ⟨0, 0⟩ .nil) = .ok vs)
    ∧ generateRequestURLHelper (.floatF "startLatitude" "start_latitude" true ⟨0, 0⟩ .nil)
        = .ok [("start_latitude", ["0"])] :=
  ⟨(c3_zero_float_not_missing "startLatitude" "start_latitude" ⟨0, 0⟩).1,
   (c3_zero_float_not_missing "startLatitude" "start_latitude" ⟨0, 0⟩).2
     (by decide) (by decide)⟩

/-- C4: building a URL with an absent (nil) request description returns
exactly `base/endpoint` with no `?`, and the same holds whenever encoding
produces zero parameters. -/
theorem c4_empty_description_short_circuit :
    (∀ base endpoint, generateRequestURL base endpoint none
        = .ok (base ++ "/" ++ endpoint))
    ∧ (∀ base endpoint d, generateRequestURLHelper d = .ok [] →
        generateRequestURL base endpoint (some d) = .ok (base ++ "/" ++ endpoint)) := by
  constructor
  · intro base endpoint
    simp [generateRequestURL]
  · intro base endpoint d h
    have hv : valuesEncode [] = "" := rfl
    simp [generateRequestURL, h, Except.map, hv]

/-- C4 witness: the short circuit at the `products` endpoint, for a nil
description and for a description with no fields. -/
theorem c4_witness :
    generateRequestURL "base" "products" none = .ok ("base" ++ "/" ++ "products")
    ∧ generateRequestURL "base" "products" (some .nil)
        = .ok ("base" ++ "/" ++ "products") :=
  ⟨c4_empty_description_short_circuit.1 "base" "products",
   c4_empty_description_short_circuit.2 "base" "products" .nil rfl⟩

/-- C5: the authorization happy path.  `OAuth` with client id "cid", secret
"secret", redirect "https://app/cb" and scopes "profile","history" yields
exactly the authorize URL whose parameter set is `client_id`,
`redirect_uri`, `response_type=code`, the space-joined `scope`, and the
constant `state` token — the client secret is excluded — and a subsequent
`SetAccessToken` against a 200 response whose body decodes to a "Bearer"
grant stores exactly that grant on the client. -/
theorem c5_authorization_happy_path :
    OAuth (NewClient "stoken") "cid" "secret" "https://app/cb" ["profile", "history"]
      = (authedClient,
         .ok "https://login.uber.com/oauth/authorize?client_id=cid&redirect_uri=https%3A%2F%2Fapp%2Fcb&response_type=code&scope=profile+history&state=go-uber")
    ∧ generateRequestURLHelper
        (authReqDesc ⟨"cid", "secret", "https://app/cb"⟩ ["profile", "history"])
      = .ok [("client_id", ["cid"]), ("redirect_uri", ["https://app/cb"]),
             ("response_type", ["code"]), ("scope", ["profile history"]),
             ("state", ["go-uber"])]
    ∧ "client_secret" ∉ (["client_id", "redirect_uri", "response_type", "scope",
        "state"] : List String)
    ∧ SetAccessToken authedClient "authcode123"
        (.response 200 ⟨.ok happyGrant, .error "EOF"⟩)
      = .done ⟨"stoken", happyGrant, some ⟨"cid", "secret", "https://app/cb"⟩⟩ none :=
  ⟨by decide, by decide, by decide, by decide⟩

/-- C6: a rejected exchange (non-200 with `{"error":"invalid_grant"}`)
returns the authorization-rejected error carrying "invalid_grant" while the
stored grant stays the zero value; and in general, whenever
`SetAccessToken` returns an error the client is left exactly as it was —
no partial update on any error path. -/
theorem c6_rejection_no_partial_write :
    (SetAccessToken authedClient "authcode123"
        (.response 400 ⟨.error "no access payload", .ok ⟨"invalid_grant"⟩⟩)
      = .done authedClient (some (.authRejected ⟨"invalid_grant"⟩))
      ∧ authedClient.access = zeroAccess)
    ∧ (∀ c code tr c2 e, SetAccessToken c code tr = .done c2 (some e) → c2 = c) := by
  refine ⟨⟨by decide, by decide⟩, ?_⟩
  intro c code tr c2 e h
  unfold SetAccessToken at h
  split at h
  · simp at h
  · split at h
    · injection h with h1 _
      exact h1.symm
    · split at h
      · injection h with h1 _
        exact h1.symm
      · split at h
        · split at h
          · injection h with h1 _
            exact h1.symm
          · split at h
            · injection h with _ h2
              simp at h2
            · injection h with h1 _
              exact h1.symm
        · injection h with h1 _
          exact h1.symm

/-- C6 witness: the no-partial-update half applied at the concrete rejected
exchange. -/
theorem c6_witness : authedClient = authedClient :=
  c6_rejection_no_partial_write.2 authedClient "authcode123"
    (.response 400 ⟨.error "no access payload", .ok ⟨"invalid_grant"⟩⟩)
    authedClient (.authRejected ⟨"invalid_grant"⟩) (by decide)

/-- C7 counterexample: on a non-200 response whose body does not decode as
an authorization error, `SetAccessToken` returns the zero-valued
authorization error — the decode failure ("unexpected EOF") is discarded,
not propagated. -/
theorem c7_counterexample :
    SetAccessToken authedClient "authcode123"
        (.response 400 ⟨.error "no access payload", .error "unexpected EOF"⟩)
      = .done authedClient (some (.authRejected ⟨""⟩))
    ∧ GoErr.authRejected ⟨""⟩ ≠ GoErr.decode "unexpected EOF" :=
  ⟨by decide, by decide⟩

/-- C7 (amended): on any non-200 response from the token endpoint (with the
session set and the exchange payload well-formed), `SetAccessToken` decodes
the body as an authorization error and returns it; if that decode fails the
decode error is DISCARDED and the zero-valued authorization error is
returned instead. -/
theorem c7_non200_decode_discarded (c : Client) (a : Auth) (code : String)
    (st : Nat) (body : Body) (hc : c.auth = some a)
    (h1 : a.clientID ≠ "") (h2 : a.clientSecret ≠ "") (h3 : a.redirectURI ≠ "")
    (h4 : code ≠ "") (hst : st ≠ 200) :
    SetAccessToken c code (.response st body)
      = .done c (some (.authRejected (authErrDecodeOrZero body))) := by
  obtain ⟨cid, sec, red⟩ := a
  unfold SetAccessToken
  rw [hc]
  simp [accReq_encode cid sec red code h1 h2 h3 h4, hst]

/-- C7 witness: the amended behavior at a concrete 500 response with an
undecodable body. -/
theorem c7_witness :
    SetAccessToken authedClient "authcode123"
        (.response 500 ⟨.error "no access payload", .error "bad json"⟩)
      = .done authedClient (some (.authRejected (authErrDecodeOrZero
          ⟨.error "no access payload", .error "bad json"⟩))) :=
  c7_non200_decode_discarded authedClient ⟨"cid", "secret", "https://app/cb"⟩
    "authcode123" 500 ⟨.error "no access payload", .error "bad json"⟩ rfl
    (by decide) (by decide) (by decide) (by decide) (by decide)

/-- C8 counterexample: invoking the exchange while the session is still
unauthorized (no `OAuth` call performed, so the `auth` pointer is nil)
panics with a nil-pointer dereference instead of returning a typed error. -/
theorem c8_counterexample :
    SetAccessToken (NewClient "stoken") "authcode123" (.failure "connection refused")
      = .panics "invalid memory address or nil pointer dereference" := by
  decide

/-- C8 (amended): once the session is initialized (`auth` set, as `OAuth`
leaves it), `SetAccessToken` never panics: for every code and every
transport outcome it returns, with a typed error value or none. -/
theorem c8_no_panics_after_begin (c : Client) (code : String) (tr : TransportResult)
    (h : c.auth.isSome = true) :
    ∃ c2 err, SetAccessToken c code tr = .done c2 err := by
  cases hres : SetAccessToken c code tr with
  | done c2 err => exact ⟨c2, err, rfl⟩
  | panics msg =>
    exfalso
    unfold SetAccessToken at hres
    split at hres
    · rename_i heq
      rw [heq] at h
      simp at h
    · split at hres
      · simp at hres
      · split at hres
        · simp at hres
        · split at hres
          · split at hres
            · simp at hres
            · split at hres <;> simp at hres
          · simp at hres

/-- C8 witness: the amended no-panic property at the authorized client and
a failing transport. -/
theorem c8_witness :
    ∃ c2 err, SetAccessToken authedClient "authcode123" (.failure "connection refused")
      = .done c2 err :=
  c8_no_panics_after_begin authedClient "authcode123" (.failure "connection refused")
    (by decide)

/-- C9 counterexample: the encoder's emitted parameter sequence is NOT in
struct declaration order: for the `timesReq` payload the emitted query
string starts with `customer_uuid` (alphabetical), while the
declaration-order rendering starts with `start_latitude`; the two differ. -/
theorem c9_counterexample :
    (generateRequestURLHelper timesSample).map valuesEncode
      = .ok "customer_uuid=u1&product_id=p1&start_latitude=0&start_longitude=0"
    ∧ (generateRequestURLHelper timesSample).map declarationOrderEncode
      = .ok "start_latitude=0&start_longitude=0&customer_uuid=u1&product_id=p1"
    ∧ ("customer_uuid=u1&product_id=p1&start_latitude=0&start_longitude=0" : String)
      ≠ "start_latitude=0&start_longitude=0&customer_uuid=u1&product_id=p1" :=
  ⟨by decide, by decide, by decide⟩

/-- C9 (amended): for every request description the encoder accepts, the
emitted parameter sequence is sorted by parameter name in nondecreasing
(byte-lexicographic) order — `url.Values.Encode` sorts its keys — and the
emitted string is exactly the flattening of that sorted sequence, hence
deterministic for each fixed input (the map-iteration nondeterminism of the
merge step is erased by the sort). -/
theorem c9_output_alphabetical (d : ReqDesc) (vs : Values)
    (_h : generateRequestURLHelper d = .ok vs) :
    (sortValues vs).Pairwise keyLe
    ∧ valuesEncode vs = String.intercalate "&"
        (((sortValues vs).map (fun kv => kv.2.map
          (fun v => queryEscape kv.1 ++ "=" ++ queryEscape v))).flatten) :=
  ⟨sortValues_sorted vs, rfl⟩

/-- C9 witness: sortedness of the emitted sequence for the concrete
`timesReq` payload. -/
theorem c9_witness :
    (sortValues [("start_latitude", ["0"]), ("start_longitude", ["0"]),
      ("customer_uuid", ["u1"]), ("product_id", ["p1"])]).Pairwise keyLe
    ∧ valuesEncode [("start_latitude", ["0"]), ("start_longitude", ["0"]),
        ("customer_uuid", ["u1"]), ("product_id", ["p1"])]
      = String.intercalate "&"
        (((sortValues [("start_latitude", ["0"]), ("start_longitude", ["0"]),
          ("customer_uuid", ["u1"]), ("product_id", ["p1"])]).map (fun kv => kv.2.map
          (fun v => queryEscape kv.1 ++ "=" ++ queryEscape v))).flatten) :=
  c9_output_alphabetical timesSample
    [("start_latitude", ["0"]), ("start_longitude", ["0"]),
      ("customer_uuid", ["u1"]), ("product_id", ["p1"])] (by decide)

/-- C10: if the authorize-URL-building step inside `AutOAuth` fails, the
function returns a nil error (reporting success) and the underlying OAuth
error is discarded — the caller cannot observe that authorization never
started. -/
theorem c10_autoauth_discards_oauth_error (c : Client)
    (clientID clientSecret redirect : String) (scope : List String)
    (c2 : Client) (e : GoErr)
    (h : OAuth c clientID clientSecret redirect scope = (c2, .error e)) :
    AutOAuthFirstStep c clientID clientSecret redirect scope = .returned c2 none := by
  unfold AutOAuthFirstStep
  rw [h]

/-- C10 witness: with an empty client id, `OAuth` fails with the
required-field error, and `AutOAuth` returns nil anyway. -/
theorem c10_witness :
    AutOAuthFirstStep (NewClient "stoken") "" "secret" "https://app/cb" ["profile"]
      = .returned ⟨"stoken", zeroAccess, some ⟨"", "secret", "https://app/cb"⟩⟩ none :=
  c10_autoauth_discards_oauth_error (NewClient "stoken") "" "secret" "https://app/cb"
    ["profile"] ⟨"stoken", zeroAccess, some ⟨"", "secret", "https://app/cb"⟩⟩
    (.requiredField "clientID") (by decide)

end GoUber
